import Mathlib

/-!
mockenc: endpoint discovery, handler binding and route registration

A shallow embedding of `main.go`.  The Go program walks `./endpoints`, decodes every file
whose name ends in `endpoint.json` into a list of `MockEndpoint` records, binds one handler
per record (the handler writes the bytes of the body file of the record, read once when the
handler is built) and registers it on a chi router under the method and pattern of the record.

Stateful code is written with explicit state passing: the state of the startup phase is the
`API` value behind the `*API` pointer together with the `World` (file system and standard
output).  A Go panic is the `Result.panic` outcome.  Library code the program calls
(`json.Unmarshal`, `filepath.Join`) is a parameter, collected in `Lib`; `filepath.WalkDir`,
`os.ReadFile`, `http.ResponseWriter.Write` and the chi router are modelled after their
documented behaviour.
-/

namespace Mockenc

/-! ## Data model -/

/-- Byte strings (`[]byte`); a nil slice is the empty list. -/
abbrev Bytes := List Nat

/-- Go `error` values.  `SkipDir` and `SkipAll` are the two sentinel errors of `io/fs` that
`filepath.WalkDir` compares against; every other error is known by its message. -/
inductive Error where
  | SkipDir
  | SkipAll
  | other (msg : String)
  deriving DecidableEq

/-- The `Error()` method. -/
def Error.message : Error → String
  | .SkipDir => "skip this directory"
  | .SkipAll => "skip everything and stop the walk"
  | .other msg => msg

/-- Go `map[string]string`, as the list of its key/value pairs. -/
abbrev StringMap := List (String × String)

structure MockRequest where
  Method : String
  Endpoint : String
  Headers : StringMap
  deriving DecidableEq

structure MockResponse where
  Status : Int
  Headers : StringMap
  BodyFile : String
  deriving DecidableEq

structure MockEndpoint where
  Request : MockRequest
  Response : MockResponse
  deriving DecidableEq

structure API where
  Endpoints : List MockEndpoint
  deriving DecidableEq

def endpointDir : String := "./endpoints"

/-! ## The environment: file system and standard output -/

/-- What `fs.FileInfo` gives the program: the base name and the directory bit. -/
structure FileInfo where
  Name : String
  IsDir : Bool
  deriving DecidableEq

/-- The `fs.DirEntry` interface: `Name()`, `IsDir()` and `Info()`.  `Info()` can fail (the
file was removed or renamed since the directory was read). -/
structure DirEntry where
  Name : String
  IsDir : Bool
  Info : Except Error FileInfo

/-- The `fs.FileInfoToDirEntry` function: the entry of the root of a walk; its `Info()`
returns the `FileInfo` it was built from. -/
def FileInfoToDirEntry (info : FileInfo) : DirEntry :=
  { Name := info.Name, IsDir := info.IsDir, Info := .ok info }

mutual
/-- A file tree as `filepath.WalkDir` sees it: the entry of the node and, for a directory,
what `os.ReadDir` returns for it: the entries read (sorted by name) and an error, if any. -/
inductive FsTree where
  | node (entry : DirEntry) (readErr : Option Error) (entries : FsForest)
/-- The entries of a directory, in the order `os.ReadDir` returns them. -/
inductive FsForest where
  | nil
  | cons (t : FsTree) (rest : FsForest)
end

def FsTree.entry : FsTree → DirEntry
  | .node d _ _ => d

structure World where
  /-- The result of `os.Lstat` on a path, with the tree below it. -/
  Lstat : String → Except Error FsTree
  /-- The result of `os.ReadFile`: the bytes read and the error, if any.  When the file
  cannot be opened the bytes are nil. -/
  ReadFile : String → Bytes × Option Error
  /-- Everything written to standard output so far, one item per call. -/
  stdout : List String

/-- The `fmt.Println` function on one or more operands already joined by blanks. -/
def World.Println (w : World) (line : String) : World :=
  { w with stdout := w.stdout ++ [line ++ "\n"] }

/-- The `fmt.Printf` function, the format already expanded. -/
def World.Printf (w : World) (text : String) : World :=
  { w with stdout := w.stdout ++ [text] }

/-- Library functions taken as parameters. -/
structure Lib where
  /-- The `json.Unmarshal` function into a `[]MockEndpoint`. -/
  Unmarshal : Bytes → Except Error (List MockEndpoint)
  /-- The `filepath.Join` function of two elements. -/
  Join : String → String → String

/-- The `strings.HasSuffix` function. -/
def HasSuffix (s suffix : String) : Bool :=
  suffix.data.isSuffixOf s.data

/-! ## HTTP -/

structure Request where
  Method : String
  Path : String
  Header : StringMap
  Body : Bytes
  deriving DecidableEq

/-- The state of an `http.ResponseWriter`: the header map, the status code once the header
has been written, and the body bytes written so far. -/
structure ResponseWriter where
  header : StringMap
  status : Option Nat
  body : Bytes
  deriving DecidableEq

/-- A writer nothing has been written to. -/
def ResponseWriter.fresh (header : StringMap) : ResponseWriter :=
  { header := header, status := none, body := [] }

/-- The `Write` method: if `WriteHeader` has not been called yet, `Write` calls
`WriteHeader(http.StatusOK)` before writing the data. -/
def ResponseWriter.Write (rw : ResponseWriter) (b : Bytes) : ResponseWriter :=
  { rw with status := some (rw.status.getD 200), body := rw.body ++ b }

/-- An `http.HandlerFunc`.  A Go function can reach the file system and standard output, so
the handler takes the world at request time and returns it. -/
abbrev Handler := World → Request → ResponseWriter → World × ResponseWriter

/-! ## Startup state and outcomes -/

structure State where
  api : API
  world : World

/-- The outcome of a call: it returns a value, or it panics with a message. -/
inductive Result (α : Type) where
  | ret (val : α) (s : State)
  | panic (msg : String) (s : State)

/-- The message of the runtime panic raised by a method call on a nil interface value. -/
def nilDereference : String :=
  "runtime error: invalid memory address or nil pointer dereference"

/-! ## `writeJsonResponse` and `service` -/

def writeJsonResponse (filename : String) (w : World) : Handler × World :=
  let (jsonFile, err) := w.ReadFile filename
  let w1 := match err with
    | some e => w.Println e.message
    | none => w
  (fun w2 _r rw => (w2, rw.Write jsonFile), w1)

structure Route where
  Method : String
  Pattern : String
  handler : Handler

/-- The chi router, as far as `service` drives it: the middlewares in use and the routes
registered with `Method`, in call order. -/
structure Router where
  middlewares : List String
  routes : List Route

def NewRouter : Router := { middlewares := [], routes := [] }

def Router.Use (r : Router) (mw : String) : Router :=
  { r with middlewares := r.middlewares ++ [mw] }

def Router.Method (r : Router) (method pattern : String) (h : Handler) : Router :=
  { r with routes := r.routes ++ [⟨method, pattern, h⟩] }

/-- The router as a map from (method, pattern) to handler: each registration, in call
order, binds its key, replacing the binding the key had. -/
def Router.bindings (r : Router) : String × String → Option Handler :=
  r.routes.foldl
    (fun m rt => fun k => if k = (rt.Method, rt.Pattern) then some rt.handler else m k)
    (fun _ => none)

/-- The body of the `for` loop of `service`, for one descriptor: log the registration, build
the handler, register it. -/
def registerEndpoint (acc : Router × World) (endpoint : MockEndpoint) : Router × World :=
  let w1 := acc.2.Printf ("registering endpoint: " ++ endpoint.Request.Method ++ " "
    ++ endpoint.Request.Endpoint ++ " " ++ endpoint.Response.BodyFile ++ "\n")
  let (h, w2) := writeJsonResponse endpoint.Response.BodyFile w1
  (acc.1.Method endpoint.Request.Method endpoint.Request.Endpoint h, w2)

def service (api : API) (w : World) : Router × World :=
  let r := NewRouter
  let r := r.Use "middleware.Logger"
  let r := r.Use "cors.Handler"
  api.Endpoints.foldl registerEndpoint (r, w)

/-! ## `walkEndpoints` -/

def walkEndpoints (lib : Lib) (path : String) (di : Option DirEntry) (err : Option Error)
    (s : State) : Result (Option Error) :=
  match err with
  | some e => .ret (some e) s
  | none =>
    match di with
    | none => .panic nilDereference s
    | some di =>
      if di.IsDir then .ret none s
      else
        match di.Info with
        | .error _ => .panic nilDereference s
        | .ok info =>
          if HasSuffix info.Name "endpoint.json" then
            let (jsonFile, err) := s.world.ReadFile path
            let w1 := match err with
              | some e => s.world.Println e.message
              | none => s.world
            match lib.Unmarshal jsonFile with
            | .error err =>
              .panic err.message
                { s with world := w1.Println ("Error unmarshaling " ++ info.Name ++ " "
                    ++ err.message) }
            | .ok e =>
              .ret none
                { api := { Endpoints := e.foldl (fun acc ept => acc ++ [ept]) s.api.Endpoints },
                  world := w1 }
          else .ret none s

/-! ## `filepath.WalkDir` -/

/-- The callback type `fs.WalkDirFunc`, with the state it may read and change. -/
abbrev WalkDirFunc := String → Option DirEntry → Option Error → State → Result (Option Error)

/-- The end of `walkDir` after a callback error: a `SkipDir` from a directory is a
successful skip. -/
def skipDirToNil (d : DirEntry) (err : Option Error) : Option Error :=
  if err = some Error.SkipDir ∧ d.IsDir = true then none else err

mutual
/-- The unexported `walkDir` of `path/filepath`. -/
def walkDir (lib : Lib) (fn : WalkDirFunc) (path : String) : FsTree → State →
    Result (Option Error)
  | .node d readErr entries, s =>
    match fn path (some d) none s with
    | .panic msg s1 => .panic msg s1
    | .ret err s1 =>
      if err ≠ none ∨ d.IsDir = false then .ret (skipDirToNil d err) s1
      else
        match readErr with
        | some e =>
          match fn path (some d) (some e) s1 with
          | .panic msg s2 => .panic msg s2
          | .ret err2 s2 =>
            if err2 ≠ none then .ret (skipDirToNil d err2) s2
            else walkDirEntries lib fn path entries s2
        | none => walkDirEntries lib fn path entries s1
/-- The loop of `walkDir` over the entries of a directory. -/
def walkDirEntries (lib : Lib) (fn : WalkDirFunc) (path : String) : FsForest → State →
    Result (Option Error)
  | .nil, s => .ret none s
  | .cons t rest, s =>
    match walkDir lib fn (lib.Join path t.entry.Name) t s with
    | .panic msg s1 => .panic msg s1
    | .ret (some err) s1 =>
      if err = Error.SkipDir then .ret none s1 else .ret (some err) s1
    | .ret none s1 => walkDirEntries lib fn path rest s1
end

/-- The root entry of a walk: `fs.FileInfoToDirEntry` of the `Lstat` result. -/
def rootTree : FsTree → FsTree
  | .node d readErr entries =>
    .node (FileInfoToDirEntry { Name := d.Name, IsDir := d.IsDir }) readErr entries

def WalkDir (lib : Lib) (root : String) (fn : WalkDirFunc) (s : State) :
    Result (Option Error) :=
  let res := match s.world.Lstat root with
    | .error err => fn root none (some err) s
    | .ok t => walkDir lib fn root (rootTree t) s
  match res with
  | .panic msg s1 => .panic msg s1
  | .ret err s1 =>
    if err = some Error.SkipDir ∨ err = some Error.SkipAll then .ret none s1 else .ret err s1

/-! ## `main`, up to the call of `ListenAndServe` -/

structure Server where
  Addr : String
  Handler : Router

/-- How far `main` gets: an unrecovered panic ends the process (exit status 2) before a
server exists; otherwise `main` builds the server and calls `server.ListenAndServe()`. -/
inductive MainOutcome where
  | crashed (msg : String) (w : World)
  | ListenAndServe (server : Server) (w : World)

def main (lib : Lib) (w : World) : MainOutcome :=
  let api : API := { Endpoints := [] }
  match WalkDir lib endpointDir (walkEndpoints lib) { api := api, world := w } with
  | .panic msg s => .crashed msg s.world
  | .ret err s =>
    let w1 := match err with
      | some e => s.world.Printf ("filepath.WalkDir() returned " ++ e.message ++ "\n")
      | none => s.world
    let w2 := w1.Println "endpoints loaded"
    let (h, w3) := service s.api w2
    .ListenAndServe { Addr := "0.0.0.0:3000", Handler := h } w3

/-! ## The walk as a sequence of visits -/

mutual
/-- The entries `walkDir` hands to the callback, with their paths, in call order, when no
`ReadDir` fails and the callback never stops the walk: the entry itself and then, for a
directory, the visits of its entries one after the other. -/
def FsTree.visits (lib : Lib) (path : String) : FsTree → List (String × DirEntry)
  | .node d _ entries =>
    (path, d) :: (if d.IsDir then FsForest.visits lib path entries else [])
/-- The visits of the entries of a directory. -/
def FsForest.visits (lib : Lib) (path : String) : FsForest → List (String × DirEntry)
  | .nil => []
  | .cons t rest =>
    FsTree.visits lib (lib.Join path t.entry.Name) t ++ FsForest.visits lib path rest
end

mutual
/-- No traversal step fails below this entry: `os.ReadDir` succeeds on every directory. -/
def FsTree.readable : FsTree → Bool
  | .node d readErr entries => !d.IsDir || (readErr.isNone && FsForest.readable entries)
/-- No traversal step fails below these entries. -/
def FsForest.readable : FsForest → Bool
  | .nil => true
  | .cons t rest => FsTree.readable t && FsForest.readable rest
end

/-- The callback applied to a list of visits in order, each without a traversal error; a
panic ends the run. -/
def runVisits (lib : Lib) : List (String × DirEntry) → State → Result (Option Error)
  | [], s => .ret none s
  | v :: vs, s =>
    match walkEndpoints lib v.1 (some v.2) none s with
    | .panic msg s1 => .panic msg s1
    | .ret _ s1 => runVisits lib vs s1

/-- A candidate file in the words of the specification: not a directory, and its name ends
with the suffix `endpoint.json`. -/
def isCandidate (d : DirEntry) : Bool :=
  !d.IsDir && match d.Info with
    | .ok info => HasSuffix info.Name "endpoint.json"
    | .error _ => false

/-- The record list the file at `path` decodes to (empty when it does not decode). -/
def decoded (lib : Lib) (w : World) (path : String) : List MockEndpoint :=
  match lib.Unmarshal (w.ReadFile path).1 with
  | .ok e => e
  | .error _ => []

/-- Whether `Info()` of the entry succeeds. -/
def DirEntry.hasInfo (d : DirEntry) : Bool :=
  match d.Info with
  | .ok _ => true
  | .error _ => false

/-- Whether the file at `path` decodes as a list of descriptors. -/
def decodes (lib : Lib) (w : World) (path : String) : Bool :=
  match lib.Unmarshal (w.ReadFile path).1 with
  | .ok _ => true
  | .error _ => false

/-- The value a call returned, if it returned. -/
def Result.returned {α : Type} : Result α → Option α
  | .ret val _ => some val
  | .panic _ _ => none

/-- The state a call ended in. -/
def Result.state {α : Type} : Result α → State
  | .ret _ s => s
  | .panic _ s => s

/-- Whether `main` reached `server.ListenAndServe()`. -/
def MainOutcome.listening : MainOutcome → Bool
  | .ListenAndServe _ _ => true
  | .crashed _ _ => false

/-- The (method, pattern) keys of the routes of the server `main` built, if it built one. -/
def MainOutcome.routeKeys : MainOutcome → Option (List (String × String))
  | .ListenAndServe server _ => some (server.Handler.routes.map (fun rt => (rt.Method, rt.Pattern)))
  | .crashed _ _ => none

/-- What the process has written to standard output. -/
def MainOutcome.stdout : MainOutcome → List String
  | .ListenAndServe _ w => w.stdout
  | .crashed _ w => w.stdout

/-- The route `service` registers for a descriptor, the handler built in world `w`. -/
def routeOf (w : World) (d : MockEndpoint) : Route :=
  { Method := d.Request.Method, Pattern := d.Request.Endpoint,
    handler := (writeJsonResponse d.Response.BodyFile w).1 }

/-! ## Concrete worlds used to evaluate the code -/

/-- A decoder for the examples: it knows three file contents and rejects everything else. -/
def exampleLib : Lib :=
  { Unmarshal := fun b =>
      if b = [91, 93] then .ok []
      else if b = [1] then
        .ok [{ Request := { Method := "GET", Endpoint := "/health", Headers := [] },
               Response := { Status := 200, Headers := [], BodyFile := "health.json" } }]
      else if b = [2] then
        .ok [{ Request := { Method := "POST", Endpoint := "/users", Headers := [] },
               Response := { Status := 404, Headers := [("X-Mock", "1")],
                             BodyFile := "missing.json" } }]
      else .error (.other "unexpected end of JSON input"),
    Join := fun p n => p ++ "/" ++ n }

/-- The descriptor of Scenario A. -/
def healthEndpoint : MockEndpoint :=
  { Request := { Method := "GET", Endpoint := "/health", Headers := [] },
    Response := { Status := 200, Headers := [], BodyFile := "health.json" } }

/-- A descriptor with status 404, one response header and a body file that does not exist. -/
def usersEndpoint : MockEndpoint :=
  { Request := { Method := "POST", Endpoint := "/users", Headers := [] },
    Response := { Status := 404, Headers := [("X-Mock", "1")], BodyFile := "missing.json" } }

/-- The error `os.ReadFile` and `os.Lstat` give for a path that does not exist. -/
def notExist (op path : String) : Error :=
  .other (op ++ " " ++ path ++ ": no such file or directory")

/-- The files of the examples: three descriptor files that decode, one that does not, and
the body file `health.json` (the bytes of `ok`); no other path can be opened. -/
def exampleReadFile (p : String) : Bytes × Option Error :=
  if p = "health.json" then ([111, 107], none)
  else if p = "./endpoints/a.endpoint.json" then ([1], none)
  else if p = "./endpoints/empty.endpoint.json" then ([91, 93], none)
  else if p = "./endpoints/sub/c.endpoint.json" then ([2], none)
  else if p = "./endpoints/bad.endpoint.json" then ([123], none)
  else ([], some (notExist "open" p))

/-- A world with no `./endpoints` directory. -/
def bareWorld : World :=
  { Lstat := fun p => .error (notExist "lstat" p),
    ReadFile := exampleReadFile,
    stdout := [] }

/-- A non-directory entry whose `Info()` succeeds. -/
def fileNode (name : String) : FsTree :=
  .node { Name := name, IsDir := false, Info := .ok { Name := name, IsDir := false } } none .nil

/-- A directory entry with the given `ReadDir` result. -/
def dirNode (name : String) (readErr : Option Error) (entries : FsForest) : FsTree :=
  .node { Name := name, IsDir := true, Info := .ok { Name := name, IsDir := true } }
    readErr entries

/-- A world whose file system holds exactly the tree `t` at `./endpoints`. -/
def worldWith (t : FsTree) : World :=
  { Lstat := fun p => if p = "./endpoints" then .ok t else .error (notExist "lstat" p),
    ReadFile := exampleReadFile,
    stdout := [] }

/-- Descriptor files, a file that is not one, and a subdirectory; everything decodes. -/
def goodTree : FsTree :=
  dirNode "endpoints" none
    (.cons (fileNode "a.endpoint.json")
      (.cons (fileNode "empty.endpoint.json")
        (.cons (fileNode "notes.txt")
          (.cons (dirNode "sub" none (.cons (fileNode "c.endpoint.json") .nil)) .nil))))

/-- A descriptor file that decodes, followed by one that does not. -/
def badTree : FsTree :=
  dirNode "endpoints" none
    (.cons (fileNode "a.endpoint.json") (.cons (fileNode "bad.endpoint.json") .nil))

/-- A descriptor file that decodes, followed by a subdirectory that cannot be read. -/
def unreadableTree : FsTree :=
  dirNode "endpoints" none
    (.cons (fileNode "a.endpoint.json")
      (.cons (dirNode "sub" (some (.other "open ./endpoints/sub: permission denied"))
        (.cons (fileNode "c.endpoint.json") .nil)) .nil))

/-- A directory holding only files that are not descriptor files. -/
def plainTree : FsTree :=
  dirNode "endpoints" none (.cons (fileNode "notes.txt") (.cons (fileNode "readme.md") .nil))

/-- A file whose `Info()` fails: it was removed after the directory was read. -/
def vanishedEntry : DirEntry :=
  { Name := "notes.txt", IsDir := false, Info := .error (notExist "lstat" "endpoints/notes.txt") }

/-- A descriptor with status 418 and one response header; its body file exists. -/
def teapotEndpoint : MockEndpoint :=
  { Request := { Method := "GET", Endpoint := "/teapot", Headers := [] },
    Response := { Status := 418, Headers := [("X-Mock", "1")], BodyFile := "health.json" } }

/-- The response a route gives to a request on a writer with the given headers and nothing
written yet, in the world `w`. -/
def Route.respond (rt : Route) (w : World) (r : Request) (header : StringMap) :
    ResponseWriter :=
  (rt.handler w r (ResponseWriter.fresh header)).2

def getHealth : Request := { Method := "GET", Path := "/health", Header := [], Body := [] }

def postUsers : Request :=
  { Method := "POST", Path := "/users", Header := [("Accept", "application/json")],
    Body := [1, 2, 3] }

/-! ## Lemmas on `writeJsonResponse` and `service` -/

theorem writeJsonResponse_fst (filename : String) (w : World) :
    (writeJsonResponse filename w).1 = fun w2 _r rw => (w2, rw.Write (w.ReadFile filename).1) := by
  unfold writeJsonResponse
  rfl

theorem writeJsonResponse_snd_ReadFile (filename : String) (w : World) :
    (writeJsonResponse filename w).2.ReadFile = w.ReadFile := by
  unfold writeJsonResponse
  rcases h : w.ReadFile filename with ⟨b, _ | e⟩ <;> simp [World.Println]

theorem registerEndpoint_fst (w : World) (acc : Router × World) (d : MockEndpoint)
    (h : acc.2.ReadFile = w.ReadFile) :
    (registerEndpoint acc d).1 = { acc.1 with routes := acc.1.routes ++ [routeOf w d] } := by
  simp only [registerEndpoint, routeOf, Router.Method, writeJsonResponse_fst, World.Printf, h]

theorem registerEndpoint_snd_ReadFile (acc : Router × World) (d : MockEndpoint) :
    (registerEndpoint acc d).2.ReadFile = acc.2.ReadFile := by
  simp only [registerEndpoint, writeJsonResponse_snd_ReadFile, World.Printf]

theorem foldl_registerEndpoint_routes (w : World) (l : List MockEndpoint) :
    ∀ acc : Router × World, acc.2.ReadFile = w.ReadFile →
      (l.foldl registerEndpoint acc).1.routes = acc.1.routes ++ l.map (routeOf w) := by
  induction l with
  | nil => intro acc _; simp
  | cons d l ih =>
    intro acc h
    rw [List.foldl_cons, ih _ (by rw [registerEndpoint_snd_ReadFile]; exact h),
      registerEndpoint_fst w acc d h]
    simp

theorem service_routes (api : API) (w : World) :
    (service api w).1.routes = api.Endpoints.map (routeOf w) := by
  unfold service
  rw [foldl_registerEndpoint_routes w _ _ rfl]
  simp [NewRouter, Router.Use]

theorem service_registers_routes_keys (api : API) (w : World) :
    (service api w).1.routes.map (fun rt => (rt.Method, rt.Pattern))
      = api.Endpoints.map (fun d => (d.Request.Method, d.Request.Endpoint)) := by
  rw [service_routes, List.map_map]; rfl

theorem foldl_bindings (l : List Route) :
    ∀ (m : String × String → Option Handler) (k : String × String),
      l.foldl (fun m rt => fun k => if k = (rt.Method, rt.Pattern) then some rt.handler else m k) m k
        = match l.reverse.find? (fun rt => decide ((rt.Method, rt.Pattern) = k)) with
          | some rt => some rt.handler
          | none => m k := by
  induction l with
  | nil => intro m k; simp
  | cons rt l ih =>
    intro m k
    rw [List.foldl_cons, ih]
    simp only [List.reverse_cons, List.find?_append]
    cases hfind : l.reverse.find? (fun rt => decide ((rt.Method, rt.Pattern) = k)) with
    | some r => simp
    | none =>
      by_cases hk : k = (rt.Method, rt.Pattern)
      · simp [hk]
      · have hk2 : ¬ (rt.Method, rt.Pattern) = k := fun h => hk h.symm
        simp [hk, hk2]

/-! ## Lemmas on the `walkEndpoints` callback -/

theorem foldl_append_each (e : List MockEndpoint) :
    ∀ old : List MockEndpoint, e.foldl (fun acc ept => acc ++ [ept]) old = old ++ e := by
  induction e with
  | nil => intro old; simp
  | cons x e ih => intro old; rw [List.foldl_cons, ih]; simp

theorem walkEndpoints_error (lib : Lib) (path : String) (di : Option DirEntry) (e : Error)
    (s : State) : walkEndpoints lib path di (some e) s = .ret (some e) s := rfl

theorem walkEndpoints_dir (lib : Lib) (path : String) (d : DirEntry) (s : State)
    (hdir : d.IsDir = true) : walkEndpoints lib path (some d) none s = .ret none s := by
  simp [walkEndpoints, hdir]

theorem walkEndpoints_info_error (lib : Lib) (path : String) (d : DirEntry) (s : State)
    (e : Error) (hdir : d.IsDir = false) (hinfo : d.Info = .error e) :
    walkEndpoints lib path (some d) none s = .panic nilDereference s := by
  simp [walkEndpoints, hdir, hinfo]

theorem walkEndpoints_other (lib : Lib) (path : String) (d : DirEntry) (s : State)
    (info : FileInfo) (hdir : d.IsDir = false) (hinfo : d.Info = .ok info)
    (hname : HasSuffix info.Name "endpoint.json" = false) :
    walkEndpoints lib path (some d) none s = .ret none s := by
  simp [walkEndpoints, hdir, hinfo, hname]

/-- The world after the callback has read a candidate file: the read error, if any, is
printed. -/
theorem walkEndpoints_candidate_ok (lib : Lib) (path : String) (d : DirEntry) (s : State)
    (info : FileInfo) (e : List MockEndpoint) (hdir : d.IsDir = false)
    (hinfo : d.Info = .ok info) (hname : HasSuffix info.Name "endpoint.json" = true)
    (hdec : lib.Unmarshal (s.world.ReadFile path).1 = .ok e) :
    ∃ w1 : World, w1.ReadFile = s.world.ReadFile ∧ w1.Lstat = s.world.Lstat
      ∧ walkEndpoints lib path (some d) none s
          = .ret none { api := { Endpoints := s.api.Endpoints ++ e }, world := w1 } := by
  rcases hr : s.world.ReadFile path with ⟨b, _ | re⟩
  · refine ⟨s.world, rfl, rfl, ?_⟩
    rw [hr] at hdec
    simp [walkEndpoints, hdir, hinfo, hname, hr, hdec, foldl_append_each]
  · refine ⟨s.world.Println re.message, rfl, rfl, ?_⟩
    rw [hr] at hdec
    simp [walkEndpoints, hdir, hinfo, hname, hr, hdec, foldl_append_each]

theorem walkEndpoints_candidate_error (lib : Lib) (path : String) (d : DirEntry) (s : State)
    (info : FileInfo) (err : Error) (hdir : d.IsDir = false)
    (hinfo : d.Info = .ok info) (hname : HasSuffix info.Name "endpoint.json" = true)
    (hdec : lib.Unmarshal (s.world.ReadFile path).1 = .error err) :
    ∃ w1 : World, w1.ReadFile = s.world.ReadFile ∧ w1.Lstat = s.world.Lstat
      ∧ walkEndpoints lib path (some d) none s
          = .panic err.message { api := s.api, world := w1 } := by
  rcases hr : s.world.ReadFile path with ⟨b, _ | re⟩
  · refine ⟨s.world.Println ("Error unmarshaling " ++ info.Name ++ " " ++ err.message),
      rfl, rfl, ?_⟩
    rw [hr] at hdec
    simp [walkEndpoints, hdir, hinfo, hname, hr, hdec]
  · refine ⟨(s.world.Println re.message).Println
        ("Error unmarshaling " ++ info.Name ++ " " ++ err.message), rfl, rfl, ?_⟩
    rw [hr] at hdec
    simp [walkEndpoints, hdir, hinfo, hname, hr, hdec]

/-! ## Lemmas on the walk -/

theorem walkEndpoints_returns_nil (lib : Lib) (path : String) (d : DirEntry) (s s1 : State)
    (v : Option Error) (h : walkEndpoints lib path (some d) none s = .ret v s1) : v = none := by
  cases hdir : d.IsDir with
  | true => rw [walkEndpoints_dir lib path d s hdir] at h; cases h; rfl
  | false =>
    cases hinfo : d.Info with
    | error e => rw [walkEndpoints_info_error lib path d s e hdir hinfo] at h; cases h
    | ok info =>
      cases hname : HasSuffix info.Name "endpoint.json" with
      | false => rw [walkEndpoints_other lib path d s info hdir hinfo hname] at h; cases h; rfl
      | true =>
        cases hdec : lib.Unmarshal (s.world.ReadFile path).1 with
        | error err =>
          obtain ⟨w1, _, _, hw⟩ :=
            walkEndpoints_candidate_error lib path d s info err hdir hinfo hname hdec
          rw [hw] at h; cases h
        | ok e =>
          obtain ⟨w1, _, _, hw⟩ :=
            walkEndpoints_candidate_ok lib path d s info e hdir hinfo hname hdec
          rw [hw] at h; cases h; rfl

theorem runVisits_append (lib : Lib) (vs ws : List (String × DirEntry)) :
    ∀ s : State, runVisits lib (vs ++ ws) s
      = match runVisits lib vs s with
        | .panic msg s1 => .panic msg s1
        | .ret _ s1 => runVisits lib ws s1 := by
  induction vs with
  | nil => intro s; simp [runVisits]
  | cons v vs ih =>
    intro s
    simp only [List.cons_append, runVisits]
    cases walkEndpoints lib v.1 (some v.2) none s with
    | panic msg s1 => rfl
    | ret val s1 => exact ih s1

theorem runVisits_returns_nil (lib : Lib) (vs : List (String × DirEntry)) :
    ∀ (s s1 : State) (v : Option Error), runVisits lib vs s = .ret v s1 → v = none := by
  induction vs with
  | nil => intro s s1 v h; simp [runVisits] at h; exact h.1.symm
  | cons x vs ih =>
    intro s s1 v h
    simp only [runVisits] at h
    cases hcb : walkEndpoints lib x.1 (some x.2) none s with
    | panic msg s2 => rw [hcb] at h; cases h
    | ret val s2 => rw [hcb] at h; exact ih s2 s1 v h

mutual
theorem walkDir_eq_runVisits (lib : Lib) : ∀ (t : FsTree) (path : String) (s : State),
    t.readable = true →
      walkDir lib (walkEndpoints lib) path t s = runVisits lib (t.visits lib path) s
  | .node d readErr entries, path, s, h => by
    rw [walkDir, FsTree.visits, runVisits]
    cases hcb : walkEndpoints lib path (some d) none s with
    | panic msg s1 => rfl
    | ret err s1 =>
      have hnil := walkEndpoints_returns_nil lib path d s s1 err hcb
      subst hnil
      cases hdir : d.IsDir with
      | false => simp [skipDirToNil, runVisits]
      | true =>
        simp only [FsTree.readable, hdir, Bool.not_true, Bool.false_or, Bool.and_eq_true,
          Option.isNone_iff_eq_none] at h
        obtain ⟨hre, hent⟩ := h
        subst hre
        simp [walkDirEntries_eq_runVisits lib entries path s1 hent]
theorem walkDirEntries_eq_runVisits (lib : Lib) : ∀ (f : FsForest) (path : String) (s : State),
    f.readable = true →
      walkDirEntries lib (walkEndpoints lib) path f s = runVisits lib (f.visits lib path) s
  | .nil, path, s, _ => by simp [walkDirEntries, FsForest.visits, runVisits]
  | .cons t rest, path, s, h => by
    simp only [FsForest.readable, Bool.and_eq_true] at h
    rw [walkDirEntries, FsForest.visits, runVisits_append,
      walkDir_eq_runVisits lib t (lib.Join path t.entry.Name) s h.1]
    cases hr : runVisits lib (FsTree.visits lib (lib.Join path t.entry.Name) t) s with
    | panic msg s1 => rfl
    | ret v s1 =>
      have hnil := runVisits_returns_nil lib _ s s1 v hr
      subst hnil
      exact walkDirEntries_eq_runVisits lib rest path s1 h.2
end

theorem isCandidate_iff (d : DirEntry) :
    isCandidate d = true ↔
      d.IsDir = false ∧ ∃ info, d.Info = .ok info ∧ HasSuffix info.Name "endpoint.json" = true := by
  unfold isCandidate
  cases hdir : d.IsDir <;> cases hinfo : d.Info <;> simp

theorem decodes_iff (lib : Lib) (w : World) (path : String) :
    decodes lib w path = true ↔ ∃ e, lib.Unmarshal (w.ReadFile path).1 = .ok e := by
  unfold decodes
  cases lib.Unmarshal (w.ReadFile path).1 <;> simp

theorem decoded_of_ok (lib : Lib) (w : World) (path : String) (e : List MockEndpoint)
    (h : lib.Unmarshal (w.ReadFile path).1 = .ok e) : decoded lib w path = e := by
  simp [decoded, h]

/-- One visit that does not panic: the callback returns nil, appends the decoded records of a
candidate and nothing otherwise, and leaves the file system as it was. -/
theorem walkEndpoints_visit (lib : Lib) (w : World) (v : String × DirEntry) (s : State)
    (hw : s.world.ReadFile = w.ReadFile)
    (hinfo : v.2.IsDir = false → v.2.hasInfo = true)
    (hdec : isCandidate v.2 = true → decodes lib w v.1 = true) :
    ∃ s1 : State, walkEndpoints lib v.1 (some v.2) none s = .ret none s1
      ∧ s1.world.ReadFile = w.ReadFile ∧ s1.world.Lstat = s.world.Lstat
      ∧ s1.api.Endpoints = s.api.Endpoints
          ++ (if isCandidate v.2 = true then decoded lib w v.1 else []) := by
  cases hdir : v.2.IsDir with
  | true =>
    refine ⟨s, walkEndpoints_dir lib v.1 v.2 s hdir, hw, rfl, ?_⟩
    simp [isCandidate, hdir]
  | false =>
    have hi := hinfo hdir
    unfold DirEntry.hasInfo at hi
    cases hinf : v.2.Info with
    | error e => rw [hinf] at hi; cases hi
    | ok info =>
      cases hname : HasSuffix info.Name "endpoint.json" with
      | false =>
        refine ⟨s, walkEndpoints_other lib v.1 v.2 s info hdir hinf hname, hw, rfl, ?_⟩
        simp [isCandidate, hdir, hinf, hname]
      | true =>
        have hc : isCandidate v.2 = true := by simp [isCandidate, hdir, hinf, hname]
        obtain ⟨e, he⟩ := (decodes_iff lib w v.1).mp (hdec hc)
        have he2 : lib.Unmarshal (s.world.ReadFile v.1).1 = .ok e := by rw [hw]; exact he
        obtain ⟨w1, hw1, hl1, hcall⟩ :=
          walkEndpoints_candidate_ok lib v.1 v.2 s info e hdir hinf hname he2
        refine ⟨_, hcall, by rw [hw1, hw], hl1, ?_⟩
        simp [hc, decoded_of_ok lib w v.1 e he]

/-- A run in which no visit panics returns nil with the records of the candidates appended in visit
order. -/
theorem runVisits_loads (lib : Lib) (w : World) (vs : List (String × DirEntry)) :
    ∀ s : State, s.world.ReadFile = w.ReadFile →
      (∀ v ∈ vs, v.2.IsDir = false → v.2.hasInfo = true) →
      (∀ v ∈ vs, isCandidate v.2 = true → decodes lib w v.1 = true) →
      ∃ s1 : State, runVisits lib vs s = .ret none s1
        ∧ s1.world.ReadFile = w.ReadFile ∧ s1.world.Lstat = s.world.Lstat
        ∧ s1.api.Endpoints = s.api.Endpoints
            ++ ((vs.filter (fun v => isCandidate v.2)).map (fun v => decoded lib w v.1)).flatten := by
  induction vs with
  | nil => intro s hw _ _; exact ⟨s, rfl, hw, rfl, by simp⟩
  | cons v vs ih =>
    intro s hw hinfo hdec
    obtain ⟨s1, hcall, hw1, hl1, hapi1⟩ :=
      walkEndpoints_visit lib w v s hw (hinfo v (List.mem_cons_self _ _))
        (hdec v (List.mem_cons_self _ _))
    obtain ⟨s2, hrun, hw2, hl2, hapi2⟩ :=
      ih s1 hw1 (fun x hx => hinfo x (List.mem_cons_of_mem _ hx))
        (fun x hx => hdec x (List.mem_cons_of_mem _ hx))
    refine ⟨s2, ?_, hw2, by rw [hl2, hl1], ?_⟩
    · simp only [runVisits, hcall]; exact hrun
    · rw [hapi2, hapi1]
      cases hc : isCandidate v.2 <;> simp [List.filter_cons, hc]

/-- A run that visits a candidate file which does not decode panics: at that file, or
earlier. -/
theorem runVisits_panics (lib : Lib) (w : World) (vs : List (String × DirEntry)) :
    ∀ s : State, s.world.ReadFile = w.ReadFile →
      (∃ v ∈ vs, isCandidate v.2 = true ∧ decodes lib w v.1 = false) →
      ∃ (msg : String) (s1 : State), runVisits lib vs s = .panic msg s1 := by
  induction vs with
  | nil => intro s _ h; obtain ⟨v, hv, _⟩ := h; cases hv
  | cons x vs ih =>
    intro s hw h
    simp only [runVisits]
    cases hcall : walkEndpoints lib x.1 (some x.2) none s with
    | panic msg s1 => exact ⟨msg, s1, rfl⟩
    | ret val s1 =>
      obtain ⟨v, hv, hc, hd⟩ := h
      have hstep : s1.world.ReadFile = w.ReadFile ∧ (v = x → False) := by
        cases hdir : x.2.IsDir with
        | true =>
          rw [walkEndpoints_dir lib x.1 x.2 s hdir] at hcall
          cases hcall
          refine ⟨hw, fun hvx => ?_⟩
          subst hvx
          simp [isCandidate, hdir] at hc
        | false =>
          cases hinf : x.2.Info with
          | error e =>
            rw [walkEndpoints_info_error lib x.1 x.2 s e hdir hinf] at hcall; cases hcall
          | ok info =>
            cases hname : HasSuffix info.Name "endpoint.json" with
            | false =>
              rw [walkEndpoints_other lib x.1 x.2 s info hdir hinf hname] at hcall
              cases hcall
              refine ⟨hw, fun hvx => ?_⟩
              subst hvx
              simp [isCandidate, hdir, hinf, hname] at hc
            | true =>
              cases hdec : lib.Unmarshal (s.world.ReadFile x.1).1 with
              | error err =>
                obtain ⟨w1, _, _, hp⟩ :=
                  walkEndpoints_candidate_error lib x.1 x.2 s info err hdir hinf hname hdec
                rw [hp] at hcall; cases hcall
              | ok e =>
                obtain ⟨w1, hw1, _, hr⟩ :=
                  walkEndpoints_candidate_ok lib x.1 x.2 s info e hdir hinf hname hdec
                rw [hr] at hcall
                cases hcall
                refine ⟨by rw [hw1, hw], fun hvx => ?_⟩
                subst hvx
                rw [hw] at hdec
                simp [decodes, hdec] at hd
      rcases List.mem_cons.mp hv with hvx | hvs
      · exact (hstep.2 hvx).elim
      · exact ih s1 hstep.1 ⟨v, hvs, hc, hd⟩

/-- On a tree without traversal errors `WalkDir` with the `walkEndpoints` callback is the run
of the callback over the visits of the tree. -/
theorem WalkDir_eq_runVisits (lib : Lib) (root : String) (t : FsTree) (s : State)
    (hroot : s.world.Lstat root = .ok t) (hread : (rootTree t).readable = true) :
    WalkDir lib root (walkEndpoints lib) s
      = runVisits lib ((rootTree t).visits lib root) s := by
  unfold WalkDir
  simp only [hroot]
  rw [walkDir_eq_runVisits lib (rootTree t) root s hread]
  cases hr : runVisits lib ((rootTree t).visits lib root) s with
  | panic msg s1 => rfl
  | ret v s1 =>
    have hnil := runVisits_returns_nil lib _ s s1 v hr
    subst hnil
    simp

/-! ## Handlers and routes -/

/-- C2: `service` issues exactly one registration per descriptor, in list order, each keyed
by the literal method and endpoint of the descriptor; with the router read as a map from
(method, pattern) to handler, the binding of a key after `service` is the handler of the last
descriptor of the list with that key, and `service` returns a router for every list (a
duplicate key is not an error). -/
theorem service_registers_in_order_last_wins (api : API) (w : World) :
    (service api w).1.routes = api.Endpoints.map (routeOf w)
    ∧ (service api w).1.routes.length = api.Endpoints.length
    ∧ (service api w).1.routes.map (fun rt => (rt.Method, rt.Pattern))
        = api.Endpoints.map (fun d => (d.Request.Method, d.Request.Endpoint))
    ∧ ∀ k : String × String,
        (service api w).1.bindings k
          = (api.Endpoints.reverse.find?
              (fun d => decide ((d.Request.Method, d.Request.Endpoint) = k))).map
              (fun d => (writeJsonResponse d.Response.BodyFile w).1) := by
  refine ⟨service_routes api w, ?_, ?_, ?_⟩
  · rw [service_routes, List.length_map]
  · rw [service_routes, List.map_map]; rfl
  · intro k
    unfold Router.bindings
    rw [foldl_bindings, service_routes, ← List.map_reverse, List.find?_map]
    cases h : api.Endpoints.reverse.find?
        (fun d => decide ((d.Request.Method, d.Request.Endpoint) = k)) with
    | none =>
      have : List.find? ((fun rt : Route => decide ((rt.Method, rt.Pattern) = k)) ∘ routeOf w)
          api.Endpoints.reverse = none := h
      simp [this]
    | some d =>
      have : List.find? ((fun rt : Route => decide ((rt.Method, rt.Pattern) = k)) ∘ routeOf w)
          api.Endpoints.reverse = some d := h
      simp [this, routeOf]

/-- C1: for a descriptor of the list whose body file is readable when `service` runs, the
route `service` registers at the position of the descriptor carries the handler built by
`writeJsonResponse` from `Response.BodyFile`, and for every request that handler appends
exactly the content of the body file to the response body: on a writer with nothing written
yet the body is the content, byte for byte. -/
theorem registered_handler_writes_body_file (api : API) (w : World) (i : Nat)
    (d : MockEndpoint) (content : Bytes) (hd : api.Endpoints[i]? = some d)
    (hread : w.ReadFile d.Response.BodyFile = (content, none)) :
    ∃ rt, (service api w).1.routes[i]? = some rt
      ∧ rt.handler = (writeJsonResponse d.Response.BodyFile w).1
      ∧ ∀ (w2 : World) (r : Request) (rw : ResponseWriter),
          (rt.handler w2 r rw).2.body = rw.body ++ content
          ∧ (rw.body = [] → (rt.handler w2 r rw).2.body = content) := by
  refine ⟨routeOf w d, ?_, rfl, ?_⟩
  · rw [service_routes, List.getElem?_map, hd]; rfl
  · intro w2 r rw
    have hb : ((routeOf w d).handler w2 r rw).2.body = rw.body ++ content := by
      simp [routeOf, writeJsonResponse_fst, hread, ResponseWriter.Write]
    exact ⟨hb, fun h0 => by rw [hb, h0, List.nil_append]⟩

theorem registered_handler_writes_body_file_witness :
    ({ Endpoints := [healthEndpoint] } : API).Endpoints[0]? = some healthEndpoint
    ∧ bareWorld.ReadFile healthEndpoint.Response.BodyFile = ([111, 107], none)
    ∧ ∃ rt, (service { Endpoints := [healthEndpoint] } bareWorld).1.routes[0]? = some rt
      ∧ rt.handler = (writeJsonResponse healthEndpoint.Response.BodyFile bareWorld).1
      ∧ ∀ (w2 : World) (r : Request) (rw : ResponseWriter),
          (rt.handler w2 r rw).2.body = rw.body ++ [111, 107]
          ∧ (rw.body = [] → (rt.handler w2 r rw).2.body = [111, 107]) :=
  ⟨by decide, by decide,
    registered_handler_writes_body_file { Endpoints := [healthEndpoint] } bareWorld 0
      healthEndpoint [111, 107] (by decide) (by decide)⟩

/-- C10: a handler built by `writeJsonResponse` answers from the bytes read when it was
built: for any two requests and any two worlds at request time (whatever the body file holds
or whether it still exists) the responses written to equal writers are equal, and the handler
returns the world it was given unchanged. -/
theorem handler_response_depends_only_on_cached_bytes (filename : String) (w : World)
    (w1 w2 : World) (r1 r2 : Request) (rw : ResponseWriter) :
    ((writeJsonResponse filename w).1 w1 r1 rw).2 = ((writeJsonResponse filename w).1 w2 r2 rw).2
    ∧ ((writeJsonResponse filename w).1 w1 r1 rw).2 = rw.Write (w.ReadFile filename).1
    ∧ ((writeJsonResponse filename w).1 w1 r1 rw).1 = w1 := by
  simp [writeJsonResponse_fst]

/-- C5 (counterexample): a descriptor configured with status 418 and the response header
`X-Mock: 1` is registered with a handler that answers status 200 and sets no header. -/
theorem configured_status_and_headers_not_sent :
    teapotEndpoint.Response.Status = 418
    ∧ teapotEndpoint.Response.Headers = [("X-Mock", "1")]
    ∧ (service { Endpoints := [teapotEndpoint] } bareWorld).1.routes.map
        (fun rt => (rt.Method, rt.Pattern,
          rt.respond bareWorld { Method := "GET", Path := "/teapot", Header := [], Body := [] } []))
        = [("GET", "/teapot", { header := [], status := some 200, body := [111, 107] })] := by
  decide

/-- C5 (amended): every handler `service` registers answers with status 200, the implicit
status of the first `Write`, whatever `Response.Status` is, and leaves the response headers as
it found them: `Response.Status` and `Response.Headers` are decoded but not used. -/
theorem registered_handler_status_200_headers_untouched (api : API) (w : World) (rt : Route)
    (hrt : rt ∈ (service api w).1.routes) (w2 : World) (r : Request) (header : StringMap) :
    (rt.respond w2 r header).status = some 200
    ∧ (rt.respond w2 r header).header = header
    ∧ ∀ rw : ResponseWriter, (rt.handler w2 r rw).2.header = rw.header
        ∧ (rt.handler w2 r rw).2.status = some (rw.status.getD 200) := by
  rw [service_routes, List.mem_map] at hrt
  obtain ⟨d, _, rfl⟩ := hrt
  simp [Route.respond, routeOf, writeJsonResponse_fst, ResponseWriter.Write,
    ResponseWriter.fresh]

theorem registered_handler_status_200_headers_untouched_witness :
    routeOf bareWorld teapotEndpoint
        ∈ (service { Endpoints := [teapotEndpoint] } bareWorld).1.routes
    ∧ ((routeOf bareWorld teapotEndpoint).respond bareWorld getHealth
          [("Vary", "Origin")]).status = some 200
    ∧ ((routeOf bareWorld teapotEndpoint).respond bareWorld getHealth
          [("Vary", "Origin")]).header = [("Vary", "Origin")] :=
  ⟨by rw [service_routes]; exact List.mem_singleton.mpr rfl,
    (registered_handler_status_200_headers_untouched { Endpoints := [teapotEndpoint] } bareWorld
      (routeOf bareWorld teapotEndpoint)
      (by rw [service_routes]; exact List.mem_singleton.mpr rfl)
      bareWorld getHealth [("Vary", "Origin")]).1,
    (registered_handler_status_200_headers_untouched { Endpoints := [teapotEndpoint] } bareWorld
      (routeOf bareWorld teapotEndpoint)
      (by rw [service_routes]; exact List.mem_singleton.mpr rfl)
      bareWorld getHealth [("Vary", "Origin")]).2.1⟩

/-- C8 (counterexample): the body file `missing.json` cannot be read, yet `writeJsonResponse`
returns a handler, `service` registers it, and it answers status 200 with an empty body. -/
theorem unreadable_body_file_still_bound :
    bareWorld.ReadFile usersEndpoint.Response.BodyFile
        = ([], some (notExist "open" "missing.json"))
    ∧ ((writeJsonResponse "missing.json" bareWorld).1 bareWorld postUsers
          (ResponseWriter.fresh [])).2 = { header := [], status := some 200, body := [] }
    ∧ (service { Endpoints := [usersEndpoint] } bareWorld).1.routes.map
        (fun rt => (rt.Method, rt.Pattern, rt.respond bareWorld postUsers []))
        = [("POST", "/users", { header := [], status := some 200, body := [] })] := by
  decide

/-- C8 (amended): when the body file of a descriptor cannot be read, binding does not fail:
`writeJsonResponse` prints the read error and returns a handler that answers every request
with status 200 and the bytes `os.ReadFile` returned along with the error (none when the file
could not be opened), and `service` registers that handler at the position of the descriptor. -/
theorem unreadable_body_file_handler_registered (api : API) (w : World) (i : Nat)
    (d : MockEndpoint) (data : Bytes) (err : Error) (hd : api.Endpoints[i]? = some d)
    (hread : w.ReadFile d.Response.BodyFile = (data, some err)) :
    (writeJsonResponse d.Response.BodyFile w).2 = w.Println err.message
    ∧ (∀ (w2 : World) (r : Request) (header : StringMap),
        (writeJsonResponse d.Response.BodyFile w).1 w2 r (ResponseWriter.fresh header)
          = (w2, { header := header, status := some 200, body := data }))
    ∧ ∃ rt, (service api w).1.routes[i]? = some rt
        ∧ rt.Method = d.Request.Method ∧ rt.Pattern = d.Request.Endpoint
        ∧ ∀ (w2 : World) (r : Request) (header : StringMap),
            rt.respond w2 r header = { header := header, status := some 200, body := data } := by
  refine ⟨?_, ?_, routeOf w d, ?_, rfl, rfl, ?_⟩
  · simp [writeJsonResponse, hread]
  · intro w2 r header
    simp [writeJsonResponse_fst, hread, ResponseWriter.Write, ResponseWriter.fresh]
  · rw [service_routes, List.getElem?_map, hd]; rfl
  · intro w2 r header
    simp [Route.respond, routeOf, writeJsonResponse_fst, hread, ResponseWriter.Write,
      ResponseWriter.fresh]

theorem unreadable_body_file_handler_registered_witness :
    ({ Endpoints := [healthEndpoint, usersEndpoint] } : API).Endpoints[1]? = some usersEndpoint
    ∧ bareWorld.ReadFile usersEndpoint.Response.BodyFile
        = ([], some (notExist "open" "missing.json"))
    ∧ ∃ rt, (service { Endpoints := [healthEndpoint, usersEndpoint] } bareWorld).1.routes[1]?
          = some rt
        ∧ rt.Method = "POST" ∧ rt.Pattern = "/users"
        ∧ ∀ (w2 : World) (r : Request) (header : StringMap),
            rt.respond w2 r header = { header := header, status := some 200, body := [] } :=
  ⟨by decide, by decide,
    (unreadable_body_file_handler_registered { Endpoints := [healthEndpoint, usersEndpoint] }
      bareWorld 1 usersEndpoint [] (notExist "open" "missing.json") (by decide)
      (by decide)).2.2⟩

/-! ## Discovery and startup -/

/-- C3 (failing input): a file that is not a descriptor file and whose `Info()` fails is
visited without a traversal error, yet the callback does not return nil: the discarded
`Info()` error leaves `info` nil and `info.Name()` panics. -/
theorem walkEndpoints_panics_when_Info_fails (lib : Lib) (s : State) :
    vanishedEntry.IsDir = false
    ∧ HasSuffix vanishedEntry.Name "endpoint.json" = false
    ∧ walkEndpoints lib "endpoints/notes.txt" (some vanishedEntry) none s
        = .panic nilDereference s
    ∧ (walkEndpoints lib "endpoints/notes.txt" (some vanishedEntry) none s).returned = none :=
  ⟨rfl, by decide, rfl, rfl⟩

/-- C4: discovery only appends.  On a candidate file whose content decodes to `e` the
callback returns nil and turns `api.Endpoints` from `old` into `old ++ e`; a walk without
traversal errors in which every candidate decodes returns nil with the concatenation of the
record lists of the candidates, in visit order, appended; a candidate holding an empty array adds
nothing; and a root without candidate files yields the empty sequence. -/
theorem discovery_appends_in_visit_order (lib : Lib) :
    (∀ (path : String) (d : DirEntry) (s : State) (e : List MockEndpoint),
        isCandidate d = true → lib.Unmarshal (s.world.ReadFile path).1 = .ok e →
        (walkEndpoints lib path (some d) none s).returned = some none
        ∧ (walkEndpoints lib path (some d) none s).state.api.Endpoints = s.api.Endpoints ++ e)
    ∧ (∀ (w : World) (t : FsTree) (old : API),
        w.Lstat endpointDir = .ok t → (rootTree t).readable = true →
        (∀ v ∈ (rootTree t).visits lib endpointDir, v.2.IsDir = false → v.2.hasInfo = true) →
        (∀ v ∈ (rootTree t).visits lib endpointDir,
          isCandidate v.2 = true → decodes lib w v.1 = true) →
        (WalkDir lib endpointDir (walkEndpoints lib) { api := old, world := w }).returned
          = some none
        ∧ (WalkDir lib endpointDir (walkEndpoints lib) { api := old, world := w }).state.api.Endpoints
          = old.Endpoints
            ++ ((((rootTree t).visits lib endpointDir).filter (fun v => isCandidate v.2)).map
                (fun v => decoded lib w v.1)).flatten)
    ∧ (∀ (path : String) (d : DirEntry) (s : State),
        isCandidate d = true → lib.Unmarshal (s.world.ReadFile path).1 = .ok [] →
        (walkEndpoints lib path (some d) none s).state.api.Endpoints = s.api.Endpoints)
    ∧ (∀ (w : World) (t : FsTree),
        w.Lstat endpointDir = .ok t → (rootTree t).readable = true →
        (∀ v ∈ (rootTree t).visits lib endpointDir, v.2.IsDir = false → v.2.hasInfo = true) →
        (∀ v ∈ (rootTree t).visits lib endpointDir, isCandidate v.2 = false) →
        (WalkDir lib endpointDir (walkEndpoints lib)
          { api := { Endpoints := [] }, world := w }).state.api.Endpoints = []) := by
  have hcb : ∀ (path : String) (d : DirEntry) (s : State) (e : List MockEndpoint),
      isCandidate d = true → lib.Unmarshal (s.world.ReadFile path).1 = .ok e →
      (walkEndpoints lib path (some d) none s).returned = some none
      ∧ (walkEndpoints lib path (some d) none s).state.api.Endpoints = s.api.Endpoints ++ e := by
    intro path d s e hc hdec
    obtain ⟨hdir, info, hinfo, hname⟩ := (isCandidate_iff d).mp hc
    obtain ⟨w1, _, _, hcall⟩ := walkEndpoints_candidate_ok lib path d s info e hdir hinfo hname hdec
    rw [hcall]
    exact ⟨rfl, rfl⟩
  have hwalk : ∀ (w : World) (t : FsTree) (old : API),
      w.Lstat endpointDir = .ok t → (rootTree t).readable = true →
      (∀ v ∈ (rootTree t).visits lib endpointDir, v.2.IsDir = false → v.2.hasInfo = true) →
      (∀ v ∈ (rootTree t).visits lib endpointDir,
        isCandidate v.2 = true → decodes lib w v.1 = true) →
      (WalkDir lib endpointDir (walkEndpoints lib) { api := old, world := w }).returned
        = some none
      ∧ (WalkDir lib endpointDir (walkEndpoints lib) { api := old, world := w }).state.api.Endpoints
        = old.Endpoints
          ++ ((((rootTree t).visits lib endpointDir).filter (fun v => isCandidate v.2)).map
              (fun v => decoded lib w v.1)).flatten := by
    intro w t old hroot hread hinfo hdec
    rw [WalkDir_eq_runVisits lib endpointDir t { api := old, world := w } hroot hread]
    obtain ⟨s1, hrun, _, _, hapi⟩ :=
      runVisits_loads lib w _ { api := old, world := w } rfl hinfo hdec
    rw [hrun]
    exact ⟨rfl, hapi⟩
  refine ⟨hcb, hwalk, ?_, ?_⟩
  · intro path d s hc hdec
    rw [(hcb path d s [] hc hdec).2, List.append_nil]
  · intro w t hroot hread hinfo hnone
    rw [(hwalk w t { Endpoints := [] } hroot hread hinfo
      (fun v hv hc => by rw [hnone v hv] at hc; cases hc)).2]
    have hf : ((rootTree t).visits lib endpointDir).filter (fun v => isCandidate v.2) = [] := by
      rw [List.filter_eq_nil_iff]
      intro v hv
      simp [hnone v hv]
    simp [hf]

theorem discovery_appends_in_visit_order_witness :
    (worldWith goodTree).Lstat endpointDir = .ok goodTree
    ∧ (rootTree goodTree).readable = true
    ∧ (∀ v ∈ (rootTree goodTree).visits exampleLib endpointDir,
        v.2.IsDir = false → v.2.hasInfo = true)
    ∧ (∀ v ∈ (rootTree goodTree).visits exampleLib endpointDir,
        isCandidate v.2 = true → decodes exampleLib (worldWith goodTree) v.1 = true)
    ∧ (WalkDir exampleLib endpointDir (walkEndpoints exampleLib)
          { api := { Endpoints := [teapotEndpoint] },
            world := worldWith goodTree }).state.api.Endpoints
        = [teapotEndpoint]
          ++ ((((rootTree goodTree).visits exampleLib endpointDir).filter
                (fun v => isCandidate v.2)).map
              (fun v => decoded exampleLib (worldWith goodTree) v.1)).flatten
    ∧ (WalkDir exampleLib endpointDir (walkEndpoints exampleLib)
          { api := { Endpoints := [teapotEndpoint] },
            world := worldWith goodTree }).state.api.Endpoints
        = [teapotEndpoint, healthEndpoint, usersEndpoint] :=
  ⟨rfl, by decide, by decide, by decide,
    ((discovery_appends_in_visit_order exampleLib).2.1 (worldWith goodTree) goodTree
      { Endpoints := [teapotEndpoint] } rfl (by decide) (by decide) (by decide)).2,
    by decide⟩

/-- C6: on a candidate file whose content does not decode the callback does not return: it
panics with the decode error and leaves `api.Endpoints` as it was.  A walk without traversal
errors that visits such a file panics, and `main` then ends in the crash: it builds no server
and does not reach `ListenAndServe`, so `service` never sees the partial list. -/
theorem undecodable_candidate_aborts_startup (lib : Lib) :
    (∀ (path : String) (d : DirEntry) (s : State) (err : Error),
        isCandidate d = true → lib.Unmarshal (s.world.ReadFile path).1 = .error err →
        (walkEndpoints lib path (some d) none s).returned = none
        ∧ ∃ s1 : State, walkEndpoints lib path (some d) none s = .panic err.message s1
            ∧ s1.api = s.api)
    ∧ (∀ (w : World) (t : FsTree),
        w.Lstat endpointDir = .ok t → (rootTree t).readable = true →
        (∃ v ∈ (rootTree t).visits lib endpointDir,
          isCandidate v.2 = true ∧ decodes lib w v.1 = false) →
        ∃ (msg : String) (s1 : State),
          WalkDir lib endpointDir (walkEndpoints lib)
              { api := { Endpoints := [] }, world := w } = .panic msg s1
          ∧ main lib w = .crashed msg s1.world
          ∧ (main lib w).listening = false
          ∧ (main lib w).routeKeys = none) := by
  refine ⟨?_, ?_⟩
  · intro path d s err hc hdec
    obtain ⟨hdir, info, hinfo, hname⟩ := (isCandidate_iff d).mp hc
    obtain ⟨w1, _, _, hcall⟩ :=
      walkEndpoints_candidate_error lib path d s info err hdir hinfo hname hdec
    rw [hcall]
    exact ⟨rfl, _, rfl, rfl⟩
  · intro w t hroot hread hbad
    obtain ⟨msg, s1, hrun⟩ :=
      runVisits_panics lib w _ { api := { Endpoints := [] }, world := w } rfl hbad
    have hwalk : WalkDir lib endpointDir (walkEndpoints lib)
        { api := { Endpoints := [] }, world := w } = .panic msg s1 := by
      rw [WalkDir_eq_runVisits lib endpointDir t _ hroot hread, hrun]
    have hmain : main lib w = .crashed msg s1.world := by
      simp only [main, hwalk]
    refine ⟨msg, s1, hwalk, hmain, ?_, ?_⟩ <;> rw [hmain] <;> rfl

theorem undecodable_candidate_aborts_startup_witness :
    (worldWith badTree).Lstat endpointDir = .ok badTree
    ∧ (rootTree badTree).readable = true
    ∧ (∃ v ∈ (rootTree badTree).visits exampleLib endpointDir,
        isCandidate v.2 = true ∧ decodes exampleLib (worldWith badTree) v.1 = false)
    ∧ (∃ (msg : String) (s1 : State),
        WalkDir exampleLib endpointDir (walkEndpoints exampleLib)
            { api := { Endpoints := [] }, world := worldWith badTree } = .panic msg s1
        ∧ main exampleLib (worldWith badTree) = .crashed msg s1.world
        ∧ (main exampleLib (worldWith badTree)).listening = false
        ∧ (main exampleLib (worldWith badTree)).routeKeys = none)
    ∧ (WalkDir exampleLib endpointDir (walkEndpoints exampleLib)
          { api := { Endpoints := [] }, world := worldWith badTree }).state.api.Endpoints
        = [healthEndpoint] :=
  ⟨rfl, by decide, by decide,
    (undecodable_candidate_aborts_startup exampleLib).2 (worldWith badTree) badTree rfl
      (by decide) (by decide),
    by decide⟩

/-- C7 (counterexample): with the root directory missing, and with a subdirectory that
cannot be read, `WalkDir` fails with the error, yet `main` builds the server and reaches
`ListenAndServe`: with no routes in the first case and with the routes loaded before the
failure in the second. -/
theorem walk_failure_does_not_abort_startup :
    (WalkDir exampleLib endpointDir (walkEndpoints exampleLib)
        { api := { Endpoints := [] }, world := bareWorld }).returned
      = some (some (notExist "lstat" "./endpoints"))
    ∧ (main exampleLib bareWorld).listening = true
    ∧ (main exampleLib bareWorld).routeKeys = some []
    ∧ (WalkDir exampleLib endpointDir (walkEndpoints exampleLib)
        { api := { Endpoints := [] }, world := worldWith unreadableTree }).returned
      = some (some (.other "open ./endpoints/sub: permission denied"))
    ∧ (main exampleLib (worldWith unreadableTree)).listening = true
    ∧ (main exampleLib (worldWith unreadableTree)).routeKeys = some [("GET", "/health")] := by
  decide

/-- C7 (amended): a traversal error reaches the callback, which returns it unchanged; a
directory that cannot be read and a missing root make `WalkDir` fail with the error; and when
`WalkDir` fails, startup goes on: `main` prints the error and `endpoints loaded`, builds the
server on `0.0.0.0:3000` from the descriptors loaded before the failure and calls
`ListenAndServe`. -/
theorem main_serves_after_walk_failure (lib : Lib) (w : World) :
    (∀ (path : String) (di : Option DirEntry) (e : Error) (s : State),
        walkEndpoints lib path di (some e) s = .ret (some e) s)
    ∧ (∀ (path : String) (d : DirEntry) (msg : String) (entries : FsForest) (s : State),
        d.IsDir = true →
        walkDir lib (walkEndpoints lib) path (.node d (some (.other msg)) entries) s
          = .ret (some (.other msg)) s)
    ∧ (∀ msg : String, w.Lstat endpointDir = .error (.other msg) →
        WalkDir lib endpointDir (walkEndpoints lib) { api := { Endpoints := [] }, world := w }
          = .ret (some (.other msg)) { api := { Endpoints := [] }, world := w })
    ∧ (∀ (err : Error) (s : State),
        WalkDir lib endpointDir (walkEndpoints lib) { api := { Endpoints := [] }, world := w }
          = .ret (some err) s →
        main lib w
            = .ListenAndServe
                { Addr := "0.0.0.0:3000",
                  Handler := (service s.api ((s.world.Printf ("filepath.WalkDir() returned "
                    ++ err.message ++ "\n")).Println "endpoints loaded")).1 }
                (service s.api ((s.world.Printf ("filepath.WalkDir() returned "
                    ++ err.message ++ "\n")).Println "endpoints loaded")).2
        ∧ (main lib w).listening = true
        ∧ (main lib w).routeKeys
            = some (s.api.Endpoints.map (fun d => (d.Request.Method, d.Request.Endpoint)))) := by
  refine ⟨fun _ _ _ _ => rfl, ?_, ?_, ?_⟩
  · intro path d msg entries s hdir
    rw [walkDir, walkEndpoints_dir lib path d s hdir]
    simp [hdir, walkEndpoints_error, skipDirToNil]
  · intro msg hroot
    simp [WalkDir, hroot, walkEndpoints_error]
  · intro err s hwalk
    have hmain : main lib w
        = .ListenAndServe
            { Addr := "0.0.0.0:3000",
              Handler := (service s.api ((s.world.Printf ("filepath.WalkDir() returned "
                ++ err.message ++ "\n")).Println "endpoints loaded")).1 }
            (service s.api ((s.world.Printf ("filepath.WalkDir() returned "
                ++ err.message ++ "\n")).Println "endpoints loaded")).2 := by
      simp only [main, hwalk]
    refine ⟨hmain, ?_, ?_⟩
    · rw [hmain]; rfl
    · rw [hmain]
      simp only [MainOutcome.routeKeys]
      rw [(service_registers_routes_keys s.api _)]

theorem main_serves_after_walk_failure_witness :
    bareWorld.Lstat endpointDir = .error (.other "lstat ./endpoints: no such file or directory")
    ∧ WalkDir exampleLib endpointDir (walkEndpoints exampleLib)
          { api := { Endpoints := [] }, world := bareWorld }
        = .ret (some (.other "lstat ./endpoints: no such file or directory"))
            { api := { Endpoints := [] }, world := bareWorld }
    ∧ (main exampleLib bareWorld).listening = true
    ∧ (main exampleLib bareWorld).routeKeys = some []
    ∧ (main exampleLib bareWorld).stdout
        = ["filepath.WalkDir() returned lstat ./endpoints: no such file or directory\n",
           "endpoints loaded\n"] :=
  ⟨rfl,
    (main_serves_after_walk_failure exampleLib bareWorld).2.2.1
      "lstat ./endpoints: no such file or directory" rfl,
    ((main_serves_after_walk_failure exampleLib bareWorld).2.2.2
      (.other "lstat ./endpoints: no such file or directory")
      { api := { Endpoints := [] }, world := bareWorld }
      ((main_serves_after_walk_failure exampleLib bareWorld).2.2.1
        "lstat ./endpoints: no such file or directory" rfl)).2.1,
    ((main_serves_after_walk_failure exampleLib bareWorld).2.2.2
      (.other "lstat ./endpoints: no such file or directory")
      { api := { Endpoints := [] }, world := bareWorld }
      ((main_serves_after_walk_failure exampleLib bareWorld).2.2.1
        "lstat ./endpoints: no such file or directory" rfl)).2.2,
    by decide⟩

end Mockenc
